import Mathlib

/-
Verification of the shopping-list telemetry pipeline (logger embedded in
src/src/DebugPanel.jsx, aggregation in src/src/LogAnalytics.jsx).

The JavaScript logger keeps module-level mutable state: an in-memory ring
buffer (logBuffer, capped at MAX_BUFFER_SIZE = 500), a pending remote batch
(logBatch, flushed at MAX_BATCH_SIZE = 10 or on timers), the bound user id
(currentUserId), the IndexedDB cache, and the Firebase store.  We embed that
state as the structure St below and each operation as an explicit state
transformer.  Asynchronous interleaving is modelled by an explicit
parameter newDuring: the entries that concurrent emit calls append to the
(cleared) live queue while a flush is suspended at its await points.
Fallible remote writes are modelled by an oracle ok : Nat -> Bool giving the
outcome of the i-th sequential push of a flush; fallible local writes and
listener callbacks by Except-valued functions.
-/

namespace ShoppingLogger

/-- Log severity levels (LOG_LEVELS in the logger source). -/
inductive Level where
  | debug
  | info
  | warn
  | error
deriving DecidableEq, Repr

/-- MAX_BUFFER_SIZE: capacity of the in-memory ring buffer. -/
def MAX_BUFFER_SIZE : Nat := 500

/-- MAX_BATCH_SIZE: pending-queue size that triggers an immediate flush. -/
def MAX_BATCH_SIZE : Nat := 10

/-- LOG_RETENTION_MS: the 30-day retention horizon in milliseconds. -/
def LOG_RETENTION_MS : Int := 30 * 24 * 60 * 60 * 1000

/-- One event envelope, as built by the core log function (timestamp,
level, category, message, data; sessionId/url/userAgent are constant for a
running instance and omitted). -/
structure Entry where
  timestamp : Int
  level : Level
  category : String
  message : String
  payload : String := ""
deriving DecidableEq, Repr

/-- The logger module state: ring buffer, pending remote batch, bound user,
local IndexedDB cache, and the remote store modelled as the list of
(userId, entry) records written so far (sessionId is constant per run).
hasDatabase models whether the firebase database handle is non-null. -/
structure St where
  logBuffer : List Entry
  logBatch : List Entry
  currentUserId : Option String
  localCache : List Entry
  remote : List (String × Entry)
  hasDatabase : Bool
deriving DecidableEq, Repr

/-- The state at module load: everything empty, no user bound. -/
def initSt : St :=
  { logBuffer := [], logBatch := [], currentUserId := none,
    localCache := [], remote := [], hasDatabase := true }

/-- Ring-buffer push: logBuffer.push(entry) followed by
if (logBuffer.length > MAX_BUFFER_SIZE) logBuffer.shift(). -/
def pushBounded (cap : Nat) (buf : List Entry) (e : Entry) : List Entry :=
  let buf' := buf ++ [e]
  if cap < buf'.length then buf'.tail else buf'

/-- The sequential push loop of flushLogBatch: the i-th push succeeds iff
ok i; a failed push throws, aborting the loop.  Returns the successfully
written prefix and whether the loop threw. -/
def runPushes (ok : Nat → Bool) : List Entry → Nat → List Entry × Bool
  | [], _ => ([], false)
  | e :: rest, i =>
    if ok i then
      let r := runPushes ok rest (i + 1)
      (e :: r.1, r.2)
    else ([], true)

/-- flushLogBatch: snapshot the pending queue, clear it, push every
snapshotted entry to logs/currentUserId/SESSION_ID in order; on a throw the
catch block unshifts the whole snapshot back onto the live queue (which by
then holds newDuring, the entries enqueued while the flush was awaiting). -/
def flushLogBatch (ok : Nat → Bool) (newDuring : List Entry) (s : St) : St :=
  match s.currentUserId with
  | none => s
  | some uid =>
    if s.logBatch.isEmpty || !s.hasDatabase then s
    else
      let logsToSend := s.logBatch
      let r := runPushes ok logsToSend 0
      { s with
        logBatch := if r.2 then logsToSend ++ newDuring else newDuring,
        remote := s.remote ++ r.1.map (fun e => (uid, e)) }

/-- saveLogToFirebase: drop the entry unless a user is bound and the
database handle exists; in a production build drop debug-level entries;
otherwise append to the pending batch and flush immediately when the batch
reaches MAX_BATCH_SIZE (the timer path is modelled as a separate flush
step). -/
def saveLogToFirebase (isProd : Bool) (ok : Nat → Bool) (newDuring : List Entry)
    (e : Entry) (s : St) : St :=
  match s.currentUserId with
  | none => s
  | some _ =>
    if !s.hasDatabase then s
    else if isProd && (e.level == Level.debug) then s
    else
      let s' := { s with logBatch := s.logBatch ++ [e] }
      if MAX_BATCH_SIZE ≤ s'.logBatch.length then flushLogBatch ok newDuring s' else s'

/-- saveLogLocally / the IndexedDB add request: succeeds appending to the
cache, or rejects (localFail) without writing. -/
def writeLocalE (localFail : Bool) (e : Entry) (cache : List Entry) :
    Except String (List Entry) :=
  if localFail then Except.error "IndexedDB write failed"
  else Except.ok (cache ++ [e])

/-- A subscribed listener callback, which may throw (listenerFail). -/
def notifyListenerE (listenerFail : Bool) : Except String Unit :=
  if listenerFail then Except.error "listener threw" else Except.ok ()

/-- The core log function with its fallible sub-calls explicit: push to the
ring buffer, invoke listeners inside try/catch, run the local write under
.catch, and hand the entry to saveLogToFirebase (whose flush swallows its
own errors).  The Except result records whether an error escapes to the
caller. -/
def logE (isProd localFail listenerFail : Bool) (ok : Nat → Bool)
    (newDuring : List Entry) (e : Entry) (s : St) : Except String St :=
  let s1 := { s with logBuffer := pushBounded MAX_BUFFER_SIZE s.logBuffer e }
  let s2 := match notifyListenerE listenerFail with
    | Except.ok _ => s1
    | Except.error _ => s1
  let s3 := match writeLocalE localFail e s2.localCache with
    | Except.ok cache => { s2 with localCache := cache }
    | Except.error _ => s2
  Except.ok (saveLogToFirebase isProd ok newDuring e s3)

/-- The state reached by one log call (logE never errors, see below). -/
def log (isProd localFail listenerFail : Bool) (ok : Nat → Bool)
    (newDuring : List Entry) (e : Entry) (s : St) : St :=
  match logE isProd localFail listenerFail ok newDuring e s with
  | Except.ok s' => s'
  | Except.error _ => s

/-- The envelope that logger.setUserId itself emits after binding. -/
def userIdSetEntry (now : Int) : Entry :=
  { timestamp := now, level := Level.info, category := "Logger",
    message := "User ID set", payload := "" }

/-- logger.setUserId: bind the user id, then log an info entry about it
(the delayed retention sweeps it schedules are modelled as separate
steps). -/
def setUserId (isProd localFail listenerFail : Bool) (ok : Nat → Bool)
    (newDuring : List Entry) (now : Int) (uid : String) (s : St) : St :=
  let s1 := { s with currentUserId := some uid }
  log isProd localFail listenerFail ok newDuring (userIdSetEntry now) s1

/-- The reduce of cleanupOldFirebaseLogs choosing the record with the
smallest timestamp (the first such record on ties), seeded with logs[0]. -/
def oldestLog (acc : Entry) : List Entry → Entry
  | [] => acc
  | l :: rest => oldestLog (if l.timestamp < acc.timestamp then l else acc) rest

/-- The deletion test of cleanupOldFirebaseLogs for one session: empty
sessions are skipped; otherwise the session expires when its oldest
record's timestamp is strictly below the cutoff. -/
def sessionExpired (cutoffTime : Int) (logs : List Entry) : Bool :=
  match logs with
  | [] => false
  | l0 :: rest => decide ((oldestLog l0 (l0 :: rest)).timestamp < cutoffTime)

/-- cleanupOldFirebaseLogs on the success path: the session groups under
the bound user's partition that remain after the sweep (an expired session
is removed whole by one remove call). -/
def cleanupOldFirebaseLogs (now : Int) (sessions : List (String × List Entry)) :
    List (String × List Entry) :=
  sessions.filter (fun p => !sessionExpired (now - LOG_RETENTION_MS) p.2)

/-- A traceable pipeline activity: an emit call, a flush (timer tick,
periodic sync, visibility/unload/reconnect, or explicit logger.flush), or
a logger.setUserId call. -/
inductive PipeStep where
  | emit (localFail listenerFail : Bool) (ok : Nat → Bool)
      (newDuring : List Entry) (e : Entry)
  | flushStep (ok : Nat → Bool) (newDuring : List Entry)
  | bindUser (localFail listenerFail : Bool) (ok : Nat → Bool)
      (newDuring : List Entry) (now : Int) (uid : String)

/-- Apply one pipeline step to the logger state. -/
def applyStep (isProd : Bool) (s : St) : PipeStep → St
  | PipeStep.emit lf nf ok nd e => log isProd lf nf ok nd e s
  | PipeStep.flushStep ok nd => flushLogBatch ok nd s
  | PipeStep.bindUser lf nf ok nd now uid => setUserId isProd lf nf ok nd now uid s

/-- Run a sequence of pipeline steps. -/
def runSteps (isProd : Bool) (s : St) (steps : List PipeStep) : St :=
  steps.foldl (applyStep isProd) s

/-- The entries a step injects into the live queue while a flush inside it
is suspended (concurrently emitted entries). -/
def stepNewDuring : PipeStep → List Entry
  | PipeStep.emit _ _ _ nd _ => nd
  | PipeStep.flushStep _ nd => nd
  | PipeStep.bindUser _ _ _ nd _ _ => nd

/-- The parameters of one emit call: the failure behaviour of its local
write and listeners, the push oracle and concurrent enqueues of any flush
it triggers, and the envelope emitted. -/
structure EmitCall where
  localFail : Bool
  listenerFail : Bool
  ok : Nat → Bool
  newDuring : List Entry
  entry : Entry

/-- Run a sequence of emit calls. -/
def runEmits (isProd : Bool) (s : St) (calls : List EmitCall) : St :=
  calls.foldl
    (fun s c => log isProd c.localFail c.listenerFail c.ok c.newDuring c.entry s) s

/-- The last k elements of a list (all of it when it is shorter than k). -/
def lastN (k : Nat) (l : List Entry) : List Entry := l.drop (l.length - k)

/-- No entry of the list is debug-level. -/
def noDebugEntries (l : List Entry) : Prop := ∀ e ∈ l, e.level ≠ Level.debug

/-- The production invariant: no debug-level entry sits in the pending
remote batch and none has been written to the remote store. -/
def prodInv (s : St) : Prop :=
  noDebugEntries s.logBatch ∧ ∀ p ∈ s.remote, (Prod.snd p).level ≠ Level.debug

/-- A sample info envelope. -/
def entA : Entry :=
  { timestamp := 1, level := Level.info, category := "Test", message := "a" }

/-- A second sample info envelope. -/
def entB : Entry :=
  { timestamp := 2, level := Level.info, category := "Test", message := "b" }

/-- A sample debug envelope. -/
def dbgEntry : Entry :=
  { timestamp := 3, level := Level.debug, category := "Test", message := "d" }

/-- Push oracle: the first push succeeds, every later one throws. -/
def failAfterOne : Nat → Bool := fun i => i == 0

/-- Push oracle: every push succeeds. -/
def allOk : Nat → Bool := fun _ => true

/-- A state with a bound user and two pending batch items. -/
def c1State : St := { initSt with currentUserId := some "u", logBatch := [entA, entB] }

/-- An envelope emitted by ordinary application activity. -/
def shopEntry : Entry :=
  { timestamp := 2, level := Level.info, category := "Shop", message := "item added" }

/-- Cross-actor scenario, step 1: actor A binds. -/
def c2s1 : St := setUserId false false false allOk [] 1 "A" initSt

/-- Cross-actor scenario, step 2: an envelope is emitted while A is bound. -/
def c2s2 : St := log false false false allOk [] shopEntry c2s1

/-- Cross-actor scenario, step 3: actor B binds; the queue is unflushed. -/
def c2s3 : St := setUserId false false false allOk [] 3 "B" c2s2

/-- Cross-actor scenario, step 4: the pending queue is flushed. -/
def c2s4 : St := flushLogBatch allOk [] c2s3

/-- A record older than the retention horizon (timestamp 0). -/
def oldE : Entry :=
  { timestamp := 0, level := Level.info, category := "C", message := "old" }

/-- A record at the retention cutoff when now = LOG_RETENTION_MS + 1. -/
def newE : Entry :=
  { timestamp := LOG_RETENTION_MS, level := Level.info, category := "C", message := "new" }

/-- A session mixing one expired and one fresh record. -/
def mixedSession : String × List Entry := ("s1", [oldE, newE])

end ShoppingLogger

namespace ShoppingAnalytics

open ShoppingLogger (Level)

/-- One remote record as LogAnalytics collects it: the envelope fields it
uses plus the owning userId recovered from its partition. -/
structure RLog where
  userId : String
  timestamp : Int
  level : Level
  category : String
  message : String
deriving DecidableEq, Repr

/-- The warn-or-error test applied throughout analyzeeLogs. -/
def isIssueLevel (l : RLog) : Bool :=
  l.level == Level.error || l.level == Level.warn

/-- One issue group accumulated by analyzeeLogs, keyed by category:message;
affectedUsers is the JS Set in insertion order. -/
structure IssueGroup where
  category : String
  message : String
  level : Level
  count : Nat
  affectedUsers : List String
  lastSeen : Int
  examples : List RLog
deriving DecidableEq, Repr

/-- The grouping key string category:message. -/
def issueKey (l : RLog) : String := l.category ++ ":" ++ l.message

/-- Set.add on the insertion-ordered user list. -/
def addUser (users : List String) (u : String) : List String :=
  if u ∈ users then users else users ++ [u]

/-- The per-record update of an issue group (count++, affectedUsers.add,
lastSeen max, examples capped at 3). -/
def bumpGroup (l : RLog) (g : IssueGroup) : IssueGroup :=
  { g with
    count := g.count + 1,
    affectedUsers := addUser g.affectedUsers l.userId,
    lastSeen := max g.lastSeen l.timestamp,
    examples := if g.examples.length < 3 then g.examples ++ [l] else g.examples }

/-- The fresh group created on first sight of a key. -/
def newGroup (l : RLog) : IssueGroup :=
  { category := l.category, message := l.message, level := l.level,
    count := 0, affectedUsers := [], lastSeen := l.timestamp, examples := [] }

/-- Insert one warn/error record into the insertion-ordered group list. -/
def insertIssue (l : RLog) : List (String × IssueGroup) → List (String × IssueGroup)
  | [] => [(issueKey l, bumpGroup l (newGroup l))]
  | (k, g) :: rest =>
    if k = issueKey l then (k, bumpGroup l g) :: rest
    else (k, g) :: insertIssue l rest

/-- The issueGroups object built by analyzeeLogs, in key insertion order. -/
def buildIssueGroups (logs : List RLog) : List (String × IssueGroup) :=
  (logs.filter isIssueLevel).foldl (fun gs l => insertIssue l gs) []

/-- An issue group as presented: affectedUsers reduced to its size. -/
structure IssueOut where
  category : String
  message : String
  level : Level
  count : Nat
  affectedUsers : Nat
  lastSeen : Int
  examples : List RLog
deriving DecidableEq, Repr

/-- Reduce the affected-user set to its cardinality. -/
def toIssueOut (g : IssueGroup) : IssueOut :=
  { category := g.category, message := g.message, level := g.level,
    count := g.count, affectedUsers := g.affectedUsers.length,
    lastSeen := g.lastSeen, examples := g.examples }

/-- Stable insertion of one group into a count-descending list: x goes
after every element with count at least x.count, as the stable JS sort
with comparator (a, b) => b.count - a.count would place it. -/
def insertByCountDesc (x : IssueOut) : List IssueOut → List IssueOut
  | [] => [x]
  | y :: ys => if y.count < x.count then x :: y :: ys else y :: insertByCountDesc x ys

/-- Stable sort by count descending (the JS .sort((a, b) => b.count - a.count)). -/
def sortByCountDesc (l : List IssueOut) : List IssueOut :=
  l.foldl (fun acc x => insertByCountDesc x acc) []

/-- The aggregate counters analyzeeLogs stores into stats. -/
structure Stats where
  totalLogs : Nat
  totalUsers : Nat
  totalErrors : Nat
  totalWarnings : Nat
  authIssues : Nat
  networkIssues : Nat
  syncIssues : Nat
deriving DecidableEq, Repr

/-- The full output of analyzeeLogs. -/
structure Analysis where
  stats : Stats
  commonIssues : List IssueOut
  recentErrors : List RLog
deriving DecidableEq, Repr

/-- analyzeeLogs from LogAnalytics.jsx: aggregate counters over the window,
issue groups keyed by category:message sorted by count (top 10), and the
first 20 error records of the (newest-first) input as recent errors. -/
def analyzeeLogs (logs : List RLog) : Analysis :=
  let errors := logs.filter (fun l => l.level == Level.error)
  let warnings := logs.filter (fun l => l.level == Level.warn)
  let authIssues := logs.filter (fun l =>
    l.category == "Auth" && isIssueLevel l)
  let networkIssues := logs.filter (fun l =>
    l.category == "Network" && isIssueLevel l)
  let syncIssues := logs.filter (fun l =>
    (l.category == "Sync" || l.category == "Firebase") && isIssueLevel l)
  let issues := sortByCountDesc ((buildIssueGroups logs).map (fun p => toIssueOut p.2))
  { stats :=
      { totalLogs := logs.length,
        totalUsers := ((logs.map RLog.userId).dedup).length,
        totalErrors := errors.length,
        totalWarnings := warnings.length,
        authIssues := authIssues.length,
        networkIssues := networkIssues.length,
        syncIssues := syncIssues.length },
    commonIssues := issues.take 10,
    recentErrors := errors.take 20 }

/-- A warn record with category Auth and message x from actor u1. -/
def rAuth1 : RLog :=
  { userId := "u1", timestamp := 10, level := Level.warn, category := "Auth", message := "x" }

/-- A second such warn record from the same actor u1. -/
def rAuth2 : RLog :=
  { userId := "u1", timestamp := 11, level := Level.warn, category := "Auth", message := "x" }

/-- A third such warn record from a second actor u2. -/
def rAuth3 : RLog :=
  { userId := "u2", timestamp := 12, level := Level.warn, category := "Auth", message := "x" }

/-- An error record with category Net and message y from actor u3. -/
def rNet : RLog :=
  { userId := "u3", timestamp := 13, level := Level.error, category := "Net", message := "y" }

/-- The aggregation window of claim C7, newest first as loadAllLogs sorts it. -/
def c7Logs : List RLog := [rNet, rAuth3, rAuth2, rAuth1]

/-- A warn record with category Sync. -/
def rSyncWarn : RLog :=
  { userId := "u", timestamp := 1, level := Level.warn, category := "Sync", message := "m" }

/-- A warn record with category Firebase. -/
def rFbWarn : RLog :=
  { userId := "u", timestamp := 2, level := Level.warn, category := "Firebase", message := "m" }

/-- Refinement statement following the spec's words, to be compared with
analyzeeLogs: the synchronization-issues counter counts exactly the warn or
error records whose category equals one single category name by exact
match. -/
def syncBucketSingleCategoryClaim : Prop :=
  ∃ name : String, ∀ logs : List RLog,
    (analyzeeLogs logs).stats.syncIssues =
      logs.countP (fun l => decide (l.category = name) && isIssueLevel l)

end ShoppingAnalytics

namespace ShoppingHeap

open ShoppingLogger (Entry)

/-- A tiny JS heap of array objects, enough to express reference versus
copy semantics of logger.getBufferedLogs. -/
structure JSHeap where
  arrays : List (List Entry)
deriving Repr

/-- Dereference an array reference. -/
def heapRead (h : JSHeap) (r : Nat) : List Entry := (h.arrays[r]?).getD []

/-- Mutate the array object behind a reference in place. -/
def heapWrite (h : JSHeap) (r : Nat) (v : List Entry) : JSHeap :=
  { arrays := h.arrays.set r v }

/-- Allocate a fresh array object, returning the new heap and reference. -/
def heapAlloc (h : JSHeap) (v : List Entry) : JSHeap × Nat :=
  ({ arrays := h.arrays ++ [v] }, h.arrays.length)

/-- logger.getBufferedLogs, i.e. the expression [...logBuffer]: allocate a
fresh array holding a copy of the buffer's current contents and hand the
caller a reference to it. -/
def getBufferedLogs (bufRef : Nat) (h : JSHeap) : JSHeap × Nat :=
  heapAlloc h (heapRead h bufRef)

/-- A heap holding one array object: the ring buffer with one entry. -/
def heap0 : JSHeap := { arrays := [[ShoppingLogger.entA]] }

end ShoppingHeap

namespace ShoppingLogger

/-- The entries a flush loop manages to write form a prefix of its
snapshot. -/
theorem runPushes_eq_take (ok : Nat → Bool) (l : List Entry) :
    ∀ i : Nat, ∃ k, k ≤ l.length ∧ (runPushes ok l i).1 = l.take k := by
  induction l with
  | nil => intro i; exact ⟨0, Nat.le_refl 0, rfl⟩
  | cons e rest ih =>
    intro i
    by_cases h : ok i
    · obtain ⟨k, hk, heq⟩ := ih (i + 1)
      refine ⟨k + 1, by simpa using hk, ?_⟩
      simp [runPushes, h, heq]
    · exact ⟨0, by simp, by simp [runPushes, h]⟩

/-- Claim C1 counterexample: flushing the two-item snapshot [entA, entB]
under an oracle that lets the first push succeed and throws on the second
writes k = 1 of n = 2 items remotely, yet the pending queue afterwards is
the whole snapshot [entA, entB], not the single un-confirmed item [entB]
that the claim predicts. -/
theorem c1_requeue_counterexample :
    (flushLogBatch failAfterOne [] c1State).remote = [("u", entA)] ∧
    (flushLogBatch failAfterOne [] c1State).logBatch ≠ [entB] ∧
    (flushLogBatch failAfterOne [] c1State).logBatch = [entA, entB] := by
  decide

/-- Claim C1 (amended): when a flush of a bound, non-empty batch fails
mid-loop, the catch block re-queues the entire n-item snapshot — the k
already-written items included — in original relative order, placed before
any items enqueued during the flush, while the remote store has gained
exactly a k-item prefix of the snapshot. -/
theorem c1_flush_failure_requeues_snapshot (ok : Nat → Bool) (nd : List Entry)
    (s : St) (uid : String) (hu : s.currentUserId = some uid)
    (hdb : s.hasDatabase = true) (hne : s.logBatch ≠ [])
    (hfail : (runPushes ok s.logBatch 0).2 = true) :
    (flushLogBatch ok nd s).logBatch = s.logBatch ++ nd ∧
    ∃ k, k ≤ s.logBatch.length ∧
      (flushLogBatch ok nd s).remote =
        s.remote ++ (s.logBatch.take k).map (fun e => (uid, e)) := by
  have hguard : (s.logBatch.isEmpty || !s.hasDatabase) = false := by
    simp [List.isEmpty_iff, hne, hdb]
  constructor
  · simp only [flushLogBatch, hu, hguard]
    simp [hfail]
  · obtain ⟨k, hk, heq⟩ := runPushes_eq_take ok s.logBatch 0
    refine ⟨k, hk, ?_⟩
    simp only [flushLogBatch, hu, hguard]
    simp [heq]

/-- Witness for the amended claim C1 theorem at the concrete failing
flush. -/
theorem c1_flush_failure_requeues_snapshot_witness :
    (flushLogBatch failAfterOne [] c1State).logBatch = c1State.logBatch ++ [] ∧
    ∃ k, k ≤ c1State.logBatch.length ∧
      (flushLogBatch failAfterOne [] c1State).remote =
        c1State.remote ++ (c1State.logBatch.take k).map (fun e => ("u", e)) :=
  c1_flush_failure_requeues_snapshot failAfterOne [] c1State "u" rfl rfl
    (by decide) (by decide)

/-- Claim C2 counterexample: shopEntry is enqueued while actor A is bound,
actor B binds before the flush, and the flush then writes shopEntry under
B's partition and never under A's — the pipeline does write an item under
a different actor's partition after a new actor is bound. -/
theorem c2_cross_actor_write_counterexample :
    c2s2.currentUserId = some "A" ∧ shopEntry ∈ c2s2.logBatch ∧
    ("B", shopEntry) ∈ c2s4.remote ∧ ("A", shopEntry) ∉ c2s4.remote := by
  decide

/-- Claim C2 (amended): every record a flush adds to the remote store is
written under the partition of the actor bound at flush time — queued
items carry no owner of their own, so they follow the current binding. -/
theorem c2_flush_partitions_by_flush_time_actor (ok : Nat → Bool)
    (nd : List Entry) (s : St) (uid : String)
    (hu : s.currentUserId = some uid) :
    ∀ p ∈ (flushLogBatch ok nd s).remote, p ∈ s.remote ∨ p.1 = uid := by
  intro p hp
  simp only [flushLogBatch, hu] at hp
  by_cases hg : (s.logBatch.isEmpty || !s.hasDatabase) = true
  · rw [if_pos hg] at hp
    exact Or.inl hp
  · rw [if_neg hg] at hp
    simp only [List.mem_append] at hp
    rcases hp with hp | hp
    · exact Or.inl hp
    · simp only [List.mem_map] at hp
      obtain ⟨e, _, rfl⟩ := hp
      exact Or.inr rfl

/-- Witness for the amended claim C2 theorem at the cross-actor flush. -/
theorem c2_flush_partitions_witness :
    c2s3.currentUserId = some "B" ∧
    ∀ p ∈ (flushLogBatch allOk [] c2s3).remote, p ∈ c2s3.remote ∨ p.1 = "B" :=
  ⟨by decide, c2_flush_partitions_by_flush_time_actor allOk [] c2s3 "B" (by decide)⟩

/-- A flush never touches the ring buffer. -/
theorem flushLogBatch_logBuffer (ok : Nat → Bool) (nd : List Entry) (s : St) :
    (flushLogBatch ok nd s).logBuffer = s.logBuffer := by
  obtain ⟨buf, batch, uid, cache, remote, db⟩ := s
  cases uid
  · rfl
  · simp only [flushLogBatch]
    split_ifs <;> rfl

/-- A flush never touches the local cache. -/
theorem flushLogBatch_localCache (ok : Nat → Bool) (nd : List Entry) (s : St) :
    (flushLogBatch ok nd s).localCache = s.localCache := by
  obtain ⟨buf, batch, uid, cache, remote, db⟩ := s
  cases uid
  · rfl
  · simp only [flushLogBatch]
    split_ifs <;> rfl

/-- Enqueueing to the remote batch never touches the ring buffer. -/
theorem saveLogToFirebase_logBuffer (isProd : Bool) (ok : Nat → Bool)
    (nd : List Entry) (e : Entry) (s : St) :
    (saveLogToFirebase isProd ok nd e s).logBuffer = s.logBuffer := by
  obtain ⟨buf, batch, uid, cache, remote, db⟩ := s
  cases uid
  · rfl
  · simp only [saveLogToFirebase]
    split_ifs <;> simp [flushLogBatch_logBuffer]

/-- Enqueueing to the remote batch never touches the local cache. -/
theorem saveLogToFirebase_localCache (isProd : Bool) (ok : Nat → Bool)
    (nd : List Entry) (e : Entry) (s : St) :
    (saveLogToFirebase isProd ok nd e s).localCache = s.localCache := by
  obtain ⟨buf, batch, uid, cache, remote, db⟩ := s
  cases uid
  · rfl
  · simp only [saveLogToFirebase]
    split_ifs <;> simp [flushLogBatch_localCache]

/-- One log call pushes exactly its entry onto the ring buffer. -/
theorem log_logBuffer (isProd lf nf : Bool) (ok : Nat → Bool) (nd : List Entry)
    (e : Entry) (s : St) :
    (log isProd lf nf ok nd e s).logBuffer = pushBounded MAX_BUFFER_SIZE s.logBuffer e := by
  cases lf <;> cases nf <;>
    simp [log, logE, writeLocalE, notifyListenerE, saveLogToFirebase_logBuffer]

/-- When the local write succeeds, one log call appends exactly its entry
to the local cache. -/
theorem log_localCache_success (isProd nf : Bool) (ok : Nat → Bool)
    (nd : List Entry) (e : Entry) (s : St) :
    (log isProd false nf ok nd e s).localCache = s.localCache ++ [e] := by
  cases nf <;>
    simp [log, logE, writeLocalE, notifyListenerE, saveLogToFirebase_localCache]

/-- Bounded push turns the last-k window of a history into the last-k
window of the extended history. -/
theorem pushBounded_lastN (k : Nat) (hk : 0 < k) (pre : List Entry) (e : Entry) :
    pushBounded k (lastN k pre) e = lastN k (pre ++ [e]) := by
  by_cases h : pre.length < k
  · have h1 : pre.length - k = 0 := by omega
    have h3 : ¬ k < (pre ++ [e]).length := by
      rw [List.length_append, List.length_singleton]; omega
    have h2 : (pre ++ [e]).length - k = 0 := by
      rw [List.length_append, List.length_singleton]; omega
    simp only [pushBounded, lastN, h1, List.drop_zero]
    rw [if_neg h3, h2, List.drop_zero]
  · push_neg at h
    have h1 : (lastN k pre).length = k := by
      simp only [lastN, List.length_drop]; omega
    have hc : k < (lastN k pre ++ [e]).length := by
      rw [List.length_append, List.length_singleton, h1]; omega
    simp only [pushBounded]
    rw [if_pos hc, ← List.drop_one,
      List.drop_append_of_le_length (by omega : 1 ≤ (lastN k pre).length)]
    simp only [lastN, List.drop_drop, List.length_append, List.length_singleton]
    rw [List.drop_append_of_le_length (by omega : pre.length + 1 - k ≤ pre.length)]
    have harith : pre.length - k + 1 = pre.length + 1 - k := by omega
    rw [harith]

/-- Running emit calls maps the last-window characterization of the ring
buffer forward through the whole sequence. -/
theorem runEmits_logBuffer (isProd : Bool) (calls : List EmitCall) :
    ∀ (s : St) (pre : List Entry), s.logBuffer = lastN MAX_BUFFER_SIZE pre →
      (runEmits isProd s calls).logBuffer =
        lastN MAX_BUFFER_SIZE (pre ++ calls.map EmitCall.entry) := by
  induction calls with
  | nil => intro s pre h; simpa [runEmits] using h
  | cons c cs ih =>
    intro s pre h
    have hstep :
        (log isProd c.localFail c.listenerFail c.ok c.newDuring c.entry s).logBuffer
          = lastN MAX_BUFFER_SIZE (pre ++ [c.entry]) := by
      rw [log_logBuffer, h, pushBounded_lastN MAX_BUFFER_SIZE (by decide) pre c.entry]
    have hrec := ih (log isProd c.localFail c.listenerFail c.ok c.newDuring c.entry s)
      (pre ++ [c.entry]) hstep
    simpa [runEmits, List.append_assoc] using hrec

/-- Claim C4: after any sequence of n emit calls from startup, the ring
buffer holds exactly the last min(n, 500) emitted envelopes in emission
order, its length is min(n, 500), and it never exceeds 500. -/
theorem c4_ring_buffer_window (isProd : Bool) (calls : List EmitCall) :
    (runEmits isProd initSt calls).logBuffer =
      lastN MAX_BUFFER_SIZE (calls.map EmitCall.entry) ∧
    (runEmits isProd initSt calls).logBuffer.length =
      min calls.length MAX_BUFFER_SIZE ∧
    (runEmits isProd initSt calls).logBuffer.length ≤ MAX_BUFFER_SIZE := by
  have h := runEmits_logBuffer isProd calls initSt [] rfl
  simp only [List.nil_append] at h
  refine ⟨h, ?_, ?_⟩
  · rw [h]
    simp only [lastN, List.length_drop, List.length_map]
    omega
  · rw [h]
    simp only [lastN, List.length_drop]
    omega

/-- Claim C6: an emit made while no actor is bound adds nothing to the
remote pending batch and performs no remote write, while the envelope is
still pushed onto the ring buffer and (when the local write succeeds)
appended to the local cache. -/
theorem c6_unbound_gate (isProd lf nf : Bool) (ok : Nat → Bool)
    (nd : List Entry) (e : Entry) (s : St) (hu : s.currentUserId = none) :
    (log isProd lf nf ok nd e s).logBatch = s.logBatch ∧
    (log isProd lf nf ok nd e s).remote = s.remote ∧
    (log isProd lf nf ok nd e s).logBuffer =
      pushBounded MAX_BUFFER_SIZE s.logBuffer e ∧
    (lf = false →
      (log isProd lf nf ok nd e s).localCache = s.localCache ++ [e]) := by
  cases lf <;> cases nf <;>
    simp [log, logE, writeLocalE, notifyListenerE, saveLogToFirebase, hu]

/-- Witness for the claim C6 theorem: an emit on the fresh unbound state. -/
theorem c6_unbound_gate_witness :
    initSt.currentUserId = none ∧
    ((log false false false allOk [] shopEntry initSt).logBatch = initSt.logBatch ∧
     (log false false false allOk [] shopEntry initSt).remote = initSt.remote ∧
     (log false false false allOk [] shopEntry initSt).logBuffer =
       pushBounded MAX_BUFFER_SIZE initSt.logBuffer shopEntry ∧
     (false = false →
       (log false false false allOk [] shopEntry initSt).localCache =
         initSt.localCache ++ [shopEntry])) :=
  ⟨rfl, c6_unbound_gate false false false allOk [] shopEntry initSt rfl⟩

/-- Claim C9: the core log call never raises to its caller — whatever the
failure behaviour of the local write, the listeners, and the remote
pushes, logE returns normally with the state log computes. -/
theorem c9_log_never_throws (isProd lf nf : Bool) (ok : Nat → Bool)
    (nd : List Entry) (e : Entry) (s : St) :
    logE isProd lf nf ok nd e s = Except.ok (log isProd lf nf ok nd e s) := by
  cases lf <;> cases nf <;> simp [log, logE, writeLocalE, notifyListenerE]

/-- Every entry a flush loop writes comes from its snapshot. -/
theorem mem_runPushes (ok : Nat → Bool) (l : List Entry) (i : Nat) :
    ∀ e ∈ (runPushes ok l i).1, e ∈ l := by
  intro e he
  obtain ⟨k, _, heq⟩ := runPushes_eq_take ok l i
  rw [heq] at he
  exact List.mem_of_mem_take he

/-- After a flush the pending queue is the old queue, the old queue
followed by the concurrent enqueues, or the concurrent enqueues alone. -/
theorem flushLogBatch_logBatch_cases (ok : Nat → Bool) (nd : List Entry) (s : St) :
    (flushLogBatch ok nd s).logBatch = s.logBatch ∨
    (flushLogBatch ok nd s).logBatch = s.logBatch ++ nd ∨
    (flushLogBatch ok nd s).logBatch = nd := by
  obtain ⟨buf, batch, uid, cache, remote, db⟩ := s
  cases uid
  · exact Or.inl rfl
  · simp only [flushLogBatch]
    split_ifs
    · exact Or.inl rfl
    · exact Or.inr (Or.inl rfl)
    · exact Or.inr (Or.inr rfl)

/-- Every remote record present after a flush was either already there or
is a snapshot entry written under the flush-time actor. -/
theorem flushLogBatch_remote_sub (ok : Nat → Bool) (nd : List Entry) (s : St) :
    ∀ p ∈ (flushLogBatch ok nd s).remote, p ∈ s.remote ∨ Prod.snd p ∈ s.logBatch := by
  obtain ⟨buf, batch, uid, cache, remote, db⟩ := s
  cases uid with
  | none => exact fun p hp => Or.inl hp
  | some u =>
    intro p hp
    simp only [flushLogBatch] at hp
    split_ifs at hp
    · exact Or.inl hp
    all_goals
      simp only [List.mem_append] at hp
      rcases hp with hp | hp
      · exact Or.inl hp
      · simp only [List.mem_map] at hp
        obtain ⟨e, he, rfl⟩ := hp
        exact Or.inr (mem_runPushes _ _ _ e he)

/-- A flush preserves the production invariant when the concurrent
enqueues are debug-free. -/
theorem flushLogBatch_prodInv (ok : Nat → Bool) (nd : List Entry) (s : St)
    (hnd : noDebugEntries nd) (h : prodInv s) : prodInv (flushLogBatch ok nd s) := by
  obtain ⟨hb, hr⟩ := h
  constructor
  · rcases flushLogBatch_logBatch_cases ok nd s with hc | hc | hc <;>
      simp only [noDebugEntries, hc]
    · exact hb
    · intro e he
      rcases List.mem_append.mp he with h' | h'
      · exact hb e h'
      · exact hnd e h'
    · exact hnd
  · intro p hp
    rcases flushLogBatch_remote_sub ok nd s p hp with h' | h'
    · exact hr p h'
    · exact hb _ h'

/-- In a production build, enqueueing any entry preserves the production
invariant: debug entries are gated out and others are not debug. -/
theorem saveLogToFirebase_prodInv (ok : Nat → Bool) (nd : List Entry)
    (e : Entry) (s : St) (hnd : noDebugEntries nd) (h : prodInv s) :
    prodInv (saveLogToFirebase true ok nd e s) := by
  obtain ⟨hb, hr⟩ := h
  cases hu : s.currentUserId with
  | none =>
    have heq : saveLogToFirebase true ok nd e s = s := by
      simp [saveLogToFirebase, hu]
    rw [heq]
    exact ⟨hb, hr⟩
  | some uid =>
    simp only [saveLogToFirebase, hu]
    split_ifs with h1 h2 h3
    · exact ⟨hb, hr⟩
    · exact ⟨hb, hr⟩
    · have he : e.level ≠ Level.debug := by
        intro hcontra
        exact h2 (by simp [hcontra])
      have hinv : prodInv { s with logBatch := s.logBatch ++ [e] } := by
        refine ⟨?_, hr⟩
        intro x hx
        rcases List.mem_append.mp hx with hx | hx
        · exact hb x hx
        · rw [List.mem_singleton.mp hx]
          exact he
      exact flushLogBatch_prodInv ok nd _ hnd hinv
    · have he : e.level ≠ Level.debug := by
        intro hcontra
        exact h2 (by simp [hcontra])
      refine ⟨?_, hr⟩
      intro x hx
      rcases List.mem_append.mp hx with hx | hx
      · exact hb x hx
      · rw [List.mem_singleton.mp hx]
        exact he

/-- In a production build, one log call preserves the production
invariant. -/
theorem log_prodInv (lf nf : Bool) (ok : Nat → Bool) (nd : List Entry)
    (e : Entry) (s : St) (hnd : noDebugEntries nd) (h : prodInv s) :
    prodInv (log true lf nf ok nd e s) := by
  cases lf <;> cases nf <;>
    simp only [log, logE, writeLocalE, notifyListenerE] <;>
    exact saveLogToFirebase_prodInv ok nd e _ hnd ⟨h.1, h.2⟩

/-- Binding a user in a production build preserves the production
invariant (the info entry it logs is not debug-level). -/
theorem setUserId_prodInv (lf nf : Bool) (ok : Nat → Bool) (nd : List Entry)
    (now : Int) (uid : String) (s : St) (hnd : noDebugEntries nd)
    (h : prodInv s) : prodInv (setUserId true lf nf ok nd now uid s) :=
  log_prodInv lf nf ok nd (userIdSetEntry now)
    { s with currentUserId := some uid } hnd ⟨h.1, h.2⟩

/-- Every pipeline step preserves the production invariant when its
concurrent enqueues are debug-free. -/
theorem applyStep_prodInv (s : St) (st : PipeStep)
    (hnd : noDebugEntries (stepNewDuring st)) (h : prodInv s) :
    prodInv (applyStep true s st) := by
  cases st with
  | emit lf nf ok nd e => exact log_prodInv lf nf ok nd e s hnd h
  | flushStep ok nd => exact flushLogBatch_prodInv ok nd s hnd h
  | bindUser lf nf ok nd now uid => exact setUserId_prodInv lf nf ok nd now uid s hnd h

/-- The production invariant is preserved along every trace whose steps
inject only debug-free concurrent enqueues. -/
theorem runSteps_prodInv (steps : List PipeStep) :
    ∀ s : St, prodInv s →
      (∀ st ∈ steps, noDebugEntries (stepNewDuring st)) →
      prodInv (runSteps true s steps) := by
  induction steps with
  | nil => exact fun s hs _ => hs
  | cons st rest ih =>
    intro s hs hnd
    exact ih (applyStep true s st)
      (applyStep_prodInv s st (hnd st (List.mem_cons_self st rest)) hs)
      (fun st' h' => hnd st' (List.mem_cons_of_mem _ h'))

/-- Claim C3: in a production build, along every trace of emits, flushes
and bindings (whose concurrent enqueues come from the same gated emit path
and hence are debug-free), no debug-level envelope is ever present in the
remote pending batch or written to the remote store; and every debug-level
envelope is still pushed onto the ring buffer and written to the local
cache. -/
theorem c3_production_gate (steps : List PipeStep) (s : St) (hs : prodInv s)
    (hnd : ∀ st ∈ steps, noDebugEntries (stepNewDuring st)) :
    prodInv (runSteps true s steps) ∧
    ∀ (nf : Bool) (ok : Nat → Bool) (nd : List Entry) (e : Entry) (s' : St),
      e.level = Level.debug →
      (log true false nf ok nd e s').logBuffer =
        pushBounded MAX_BUFFER_SIZE s'.logBuffer e ∧
      (log true false nf ok nd e s').localCache = s'.localCache ++ [e] := by
  refine ⟨runSteps_prodInv steps s hs hnd, ?_⟩
  intro nf ok nd e s' _
  exact ⟨log_logBuffer true false nf ok nd e s',
    log_localCache_success true nf ok nd e s'⟩

/-- Witness for the claim C3 theorem on a concrete production trace that
emits a debug entry before and after binding a user and then flushes. -/
theorem c3_production_gate_witness :
    prodInv initSt ∧
    (∀ st ∈ ([PipeStep.emit false false allOk [] dbgEntry,
        PipeStep.bindUser false false allOk [] 5 "u",
        PipeStep.emit false false allOk [] dbgEntry,
        PipeStep.flushStep allOk []] : List PipeStep),
      noDebugEntries (stepNewDuring st)) ∧
    (prodInv (runSteps true initSt
        [PipeStep.emit false false allOk [] dbgEntry,
         PipeStep.bindUser false false allOk [] 5 "u",
         PipeStep.emit false false allOk [] dbgEntry,
         PipeStep.flushStep allOk []]) ∧
      ∀ (nf : Bool) (ok : Nat → Bool) (nd : List Entry) (e : Entry) (s' : St),
        e.level = Level.debug →
        (log true false nf ok nd e s').logBuffer =
          pushBounded MAX_BUFFER_SIZE s'.logBuffer e ∧
        (log true false nf ok nd e s').localCache = s'.localCache ++ [e]) := by
  have hinit : prodInv initSt := by
    constructor
    · intro e he
      simp [initSt] at he
    · intro p hp
      simp [initSt] at hp
  refine ⟨hinit, ?_, ?_⟩
  · intro st hst
    fin_cases hst <;> simp [stepNewDuring, noDebugEntries]
  · exact c3_production_gate _ initSt hinit
      (by intro st hst; fin_cases hst <;> simp [stepNewDuring, noDebugEntries])

/-- The reduce result is the accumulator or a list element. -/
theorem oldestLog_mem (l : List Entry) :
    ∀ acc : Entry, oldestLog acc l = acc ∨ oldestLog acc l ∈ l := by
  induction l with
  | nil => exact fun acc => Or.inl rfl
  | cons x rest ih =>
    intro acc
    simp only [oldestLog]
    by_cases h : x.timestamp < acc.timestamp
    · rw [if_pos h]
      rcases ih x with h' | h'
      · exact Or.inr (by rw [h']; exact List.mem_cons_self x rest)
      · exact Or.inr (List.mem_cons_of_mem x h')
    · rw [if_neg h]
      rcases ih acc with h' | h'
      · exact Or.inl h'
      · exact Or.inr (List.mem_cons_of_mem x h')

/-- The reduce result has the smallest timestamp among the accumulator and
the list elements. -/
theorem oldestLog_le (l : List Entry) :
    ∀ acc : Entry, (oldestLog acc l).timestamp ≤ acc.timestamp ∧
      ∀ e ∈ l, (oldestLog acc l).timestamp ≤ e.timestamp := by
  induction l with
  | nil => exact fun acc => ⟨le_refl _, by simp⟩
  | cons x rest ih =>
    intro acc
    simp only [oldestLog]
    by_cases h : x.timestamp < acc.timestamp
    · rw [if_pos h]
      obtain ⟨h1, h2⟩ := ih x
      refine ⟨le_trans h1 (le_of_lt h), ?_⟩
      intro e he
      rcases List.mem_cons.mp he with rfl | he'
      · exact h1
      · exact h2 e he'
    · rw [if_neg h]
      obtain ⟨h1, h2⟩ := ih acc
      refine ⟨h1, ?_⟩
      intro e he
      rcases List.mem_cons.mp he with rfl | he'
      · exact le_trans h1 (not_lt.mp h)
      · exact h2 e he'

/-- A session expires exactly when some of its records is older than the
cutoff (the code tests the minimum, which is equivalent). -/
theorem sessionExpired_iff (c : Int) (logs : List Entry) :
    sessionExpired c logs = true ↔ ∃ e ∈ logs, e.timestamp < c := by
  cases logs with
  | nil => simp [sessionExpired]
  | cons l0 rest =>
    simp only [sessionExpired, decide_eq_true_eq]
    constructor
    · intro h
      rcases oldestLog_mem (l0 :: rest) l0 with hm | hm
      · exact ⟨l0, List.mem_cons_self _ _, by rwa [hm] at h⟩
      · exact ⟨oldestLog l0 (l0 :: rest), hm, h⟩
    · rintro ⟨e, he, hlt⟩
      exact lt_of_le_of_lt ((oldestLog_le (l0 :: rest) l0).2 e he) hlt

/-- Claim C5 counterexample: with now = LOG_RETENTION_MS + 1 the cutoff is
1; mixedSession contains newE whose timestamp LOG_RETENTION_MS is at or
after the cutoff, yet the sweep deletes the whole session because its
oldest record (timestamp 0) is older than the cutoff — the session is not
retained in full as the claim's second half demands. -/
theorem c5_mixed_session_counterexample :
    cleanupOldFirebaseLogs (LOG_RETENTION_MS + 1) [mixedSession] = [] ∧
    (LOG_RETENTION_MS + 1) - LOG_RETENTION_MS ≤ newE.timestamp := by
  decide

/-- Claim C5 (amended): the sweep retains a session group (whole, with all
its records) if and only if every record in it is at or after the cutoff —
equivalently, it deletes the group in one operation iff its minimum
timestamp is strictly below now minus the 30-day horizon. -/
theorem c5_sweep_retains_iff (now : Int) (sessions : List (String × List Entry))
    (p : String × List Entry) (hmem : p ∈ sessions) :
    p ∈ cleanupOldFirebaseLogs now sessions ↔
      ∀ e ∈ p.2, now - LOG_RETENTION_MS ≤ e.timestamp := by
  have hfilter : p ∈ cleanupOldFirebaseLogs now sessions ↔
      (!sessionExpired (now - LOG_RETENTION_MS) p.2) = true := by
    simp [cleanupOldFirebaseLogs, List.mem_filter, hmem]
  rw [hfilter]
  constructor
  · intro h e he
    by_contra hlt
    push_neg at hlt
    have hexp : sessionExpired (now - LOG_RETENTION_MS) p.2 = true :=
      (sessionExpired_iff _ _).mpr ⟨e, he, hlt⟩
    rw [hexp] at h
    exact absurd h (by simp)
  · intro h
    cases hb : sessionExpired (now - LOG_RETENTION_MS) p.2 with
    | false => simp [hb]
    | true =>
      obtain ⟨e, he, hlt⟩ := (sessionExpired_iff _ _).mp hb
      exact absurd (h e he) (not_le.mpr hlt)

/-- Witness for the amended claim C5 theorem on the mixed session. -/
theorem c5_sweep_retains_iff_witness :
    mixedSession ∈ [mixedSession] ∧
    (mixedSession ∈ cleanupOldFirebaseLogs (LOG_RETENTION_MS + 1) [mixedSession] ↔
      ∀ e ∈ mixedSession.2,
        (LOG_RETENTION_MS + 1) - LOG_RETENTION_MS ≤ e.timestamp) :=
  ⟨by decide,
    c5_sweep_retains_iff (LOG_RETENTION_MS + 1) [mixedSession] mixedSession (by decide)⟩

end ShoppingLogger

namespace ShoppingAnalytics

/-- Claim C7: aggregating the window of three warn (Auth, x) records from
two distinct actors plus one error (Net, y) record yields (Auth, x) as the
top common issue with occurrence count 3 and affected-actor count 2, and
the (Net, y) record appears in the recent-errors list. -/
theorem c7_concrete_aggregation :
    ((analyzeeLogs c7Logs).commonIssues.head?.map
      (fun g => (g.category, g.message, g.count, g.affectedUsers))) =
      some ("Auth", "x", 3, 2) ∧
    rNet ∈ (analyzeeLogs c7Logs).recentErrors := by
  decide

/-- String BEq agrees with decidable equality. -/
theorem strBeqDecide (a b : String) : (a == b) = decide (a = b) := by
  by_cases h : a = b <;> simp [h]

/-- Level BEq agrees with decidable equality. -/
theorem lvlBeqDecide (a b : ShoppingLogger.Level) : (a == b) = decide (a = b) := by
  by_cases h : a = b <;> simp [h]

/-- Claim C8 counterexample: no single category name reproduces the
synchronization counter — a [Sync warn] window forces the name to be Sync
while a [Firebase warn] window forces it to be Firebase, because the code
counts both categories into the one bucket. -/
theorem c8_sync_bucket_counterexample : ¬ syncBucketSingleCategoryClaim := by
  rintro ⟨name, hname⟩
  have h1 := hname [rSyncWarn]
  have h2 := hname [rFbWarn]
  have e1 : (analyzeeLogs [rSyncWarn]).stats.syncIssues = 1 := by decide
  have e2 : (analyzeeLogs [rFbWarn]).stats.syncIssues = 1 := by decide
  have hi1 : isIssueLevel rSyncWarn = true := by decide
  have hi2 : isIssueLevel rFbWarn = true := by decide
  rw [e1] at h1
  rw [e2] at h2
  have hs : name = "Sync" := by
    by_contra hne
    have hne' : ¬ (rSyncWarn.category = name) := fun hcontra => hne hcontra.symm
    rw [List.countP_cons, List.countP_nil] at h1
    simp [hne', hi1] at h1
  have hf : name = "Firebase" := by
    by_contra hne
    have hne' : ¬ (rFbWarn.category = name) := fun hcontra => hne hcontra.symm
    rw [List.countP_cons, List.countP_nil] at h2
    simp [hne', hi2] at h2
  rw [hs] at hf
  exact absurd hf (by decide)

/-- Claim C8 (amended): the authentication and network counters count
exactly the warn or error records whose category is Auth respectively
Network by exact match; the synchronization counter counts the warn or
error records whose category is Sync or Firebase — two category names, not
one. -/
theorem c8_bucket_counts (logs : List RLog) :
    (analyzeeLogs logs).stats.authIssues =
      logs.countP (fun l => decide (l.category = "Auth") &&
        (decide (l.level = ShoppingLogger.Level.error) ||
         decide (l.level = ShoppingLogger.Level.warn))) ∧
    (analyzeeLogs logs).stats.networkIssues =
      logs.countP (fun l => decide (l.category = "Network") &&
        (decide (l.level = ShoppingLogger.Level.error) ||
         decide (l.level = ShoppingLogger.Level.warn))) ∧
    (analyzeeLogs logs).stats.syncIssues =
      logs.countP (fun l =>
        (decide (l.category = "Sync") || decide (l.category = "Firebase")) &&
        (decide (l.level = ShoppingLogger.Level.error) ||
         decide (l.level = ShoppingLogger.Level.warn))) := by
  have key : ∀ p q : RLog → Bool, (∀ a, p a = q a) →
      (logs.filter p).length = (logs.filter q).length := by
    intro p q hpq
    congr 1
    exact List.filter_congr (fun a _ => hpq a)
  refine ⟨?_, ?_, ?_⟩
  · rw [List.countP_eq_length_filter]
    show (logs.filter (fun l => l.category == "Auth" && isIssueLevel l)).length = _
    apply key
    intro a
    simp only [isIssueLevel, strBeqDecide, lvlBeqDecide]
  · rw [List.countP_eq_length_filter]
    show (logs.filter (fun l => l.category == "Network" && isIssueLevel l)).length = _
    apply key
    intro a
    simp only [isIssueLevel, strBeqDecide, lvlBeqDecide]
  · rw [List.countP_eq_length_filter]
    show (logs.filter (fun l =>
      (l.category == "Sync" || l.category == "Firebase") && isIssueLevel l)).length = _
    apply key
    intro a
    simp only [isIssueLevel, strBeqDecide, lvlBeqDecide]

end ShoppingAnalytics

namespace ShoppingHeap

open ShoppingLogger (Entry)

/-- Reading a freshly allocated reference yields the allocated value. -/
theorem heapRead_alloc (h : JSHeap) (v : List Entry) :
    heapRead (heapAlloc h v).1 (heapAlloc h v).2 = v := by
  simp only [heapRead, heapAlloc]
  rw [List.getElem?_append_right (le_refl h.arrays.length)]
  simp

/-- Writing through one reference leaves every other reference's contents
unchanged. -/
theorem heapRead_write_ne (h : JSHeap) (r j : Nat) (v : List Entry)
    (hne : r ≠ j) : heapRead (heapWrite h r v) j = heapRead h j := by
  simp only [heapRead, heapWrite]
  rw [List.getElem?_set_ne hne]

/-- Claim C10: getBufferedLogs returns a fresh copy of the ring buffer —
the returned reference holds the buffer's events, is distinct from the
buffer's own reference, mutating it leaves the internal buffer unchanged,
and a subsequent getBufferedLogs call still returns the same events. -/
theorem c10_getBufferedLogs_fresh_copy (h : JSHeap) (bufRef : Nat)
    (hlt : bufRef < h.arrays.length) (v : List Entry) :
    heapRead (getBufferedLogs bufRef h).1 (getBufferedLogs bufRef h).2 =
      heapRead h bufRef ∧
    (getBufferedLogs bufRef h).2 ≠ bufRef ∧
    heapRead
        (heapWrite (getBufferedLogs bufRef h).1 (getBufferedLogs bufRef h).2 v)
        bufRef = heapRead h bufRef ∧
    heapRead
        (getBufferedLogs bufRef
          (heapWrite (getBufferedLogs bufRef h).1 (getBufferedLogs bufRef h).2 v)).1
        (getBufferedLogs bufRef
          (heapWrite (getBufferedLogs bufRef h).1 (getBufferedLogs bufRef h).2 v)).2 =
      heapRead h bufRef := by
  have hidx : (getBufferedLogs bufRef h).2 ≠ bufRef := by
    simp only [getBufferedLogs, heapAlloc]
    omega
  have hold : heapRead (getBufferedLogs bufRef h).1 bufRef = heapRead h bufRef := by
    simp only [getBufferedLogs, heapAlloc, heapRead]
    rw [List.getElem?_append, if_pos hlt]
  refine ⟨heapRead_alloc h _, hidx, ?_, ?_⟩
  · rw [heapRead_write_ne _ _ _ _ hidx, hold]
  · show heapRead (heapAlloc _ _).1 (heapAlloc _ _).2 = _
    rw [heapRead_alloc, heapRead_write_ne _ _ _ _ hidx, hold]

/-- Witness for the claim C10 theorem on the one-array heap. -/
theorem c10_getBufferedLogs_fresh_copy_witness :
    0 < heap0.arrays.length ∧
    (heapRead (getBufferedLogs 0 heap0).1 (getBufferedLogs 0 heap0).2 =
      heapRead heap0 0 ∧
    (getBufferedLogs 0 heap0).2 ≠ 0 ∧
    heapRead (heapWrite (getBufferedLogs 0 heap0).1 (getBufferedLogs 0 heap0).2 [])
      0 = heapRead heap0 0 ∧
    heapRead
      (getBufferedLogs 0
        (heapWrite (getBufferedLogs 0 heap0).1 (getBufferedLogs 0 heap0).2 [])).1
      (getBufferedLogs 0
        (heapWrite (getBufferedLogs 0 heap0).1 (getBufferedLogs 0 heap0).2 [])).2 =
      heapRead heap0 0) :=
  ⟨by decide, c10_getBufferedLogs_fresh_copy heap0 0 (by decide) []⟩

end ShoppingHeap
